import Mathlib

/-!
Verification development for `robust_git.py`: a shallow embedding of the
supervised process-execution primitive (`shellExecWithStuckCheck`), the
retry loops of `clone` and `pull`, and the one-shot `cmdCall` / `clean`
operations, together with theorems settling the specification claims.

Python strings are modelled as `List Char`; a child process's observable
behaviour is modelled as the trace of poll cycles its two output streams
produce (each cycle is either a select timeout or a list of read events,
where an empty read means end-of-stream), plus its final exit code.
-/

namespace RobustGit

/-- Python `str` content is modelled as a list of characters. -/
abbrev Str := List Char

/-- Identifier of one of the child's two output streams
(`proc.stdout` / `proc.stderr`). -/
inductive StreamId where
  | out
  | err
  deriving DecidableEq, Repr

/-- One read from a ready stream inside the selector loop: `data = []`
models `read()` returning an empty string, i.e. end-of-stream. -/
structure ReadEvent where
  stream : StreamId
  data : Str
  deriving DecidableEq, Repr

/-- One iteration of `selector.select(_STUCK_TIMEOUT)`: either the timeout
elapsed with no stream ready (`res == []` in the source), or a list of
ready-stream read events, in the order the source's `for` loop sees them. -/
inductive Cycle where
  | timeout
  | ready (events : List ReadEvent)
  deriving DecidableEq, Repr

/-- A write performed on the parent's own streams, tagged with when it
happens relative to the child's lifetime: `duringRun` models the
`sys.stdout.write` / `sys.stderr.write` calls inside the selector loop
(the child has not been waited for yet), `afterExit` models output printed
after the child has completed (the `print` in `cmdCall`). -/
inductive EchoEvent where
  | duringRun (stream : StreamId) (chunk : Str)
  | afterExit (chunk : Str)
  deriving DecidableEq, Repr

/-- State of the selector loop of `shellExecWithStuckCheck`: the two
accumulators `sStdout` / `sStderr`, the parent-side writes so far, which
streams are still registered with the selector, the `bStuck` flag, and
whether `proc.terminate()` has been called. -/
structure DrainState where
  sStdout : Str
  sStderr : Str
  echoes : List EchoEvent
  regOut : Bool
  regErr : Bool
  bStuck : Bool
  terminated : Bool
  deriving DecidableEq, Repr

/-- Initial selector-loop state: empty accumulators, both streams
registered, not stuck, child not terminated. -/
def initDrainState : DrainState :=
  { sStdout := [], sStderr := [], echoes := [], regOut := true,
    regErr := true, bStuck := false, terminated := false }

/-- `_STUCK_TIMEOUT = 60` (seconds). -/
def STUCK_TIMEOUT : Nat := 60

/-- `_RETRY_TIMEOUT = 1` (second). -/
def RETRY_TIMEOUT : Nat := 1

/-- Diagnostic line the source writes to `sys.stderr` when the child is
declared stuck. -/
def stuckMessage : Str :=
  "Process stuck for 60 second(s), terminated.\n".toList

/-- Body of the `for key, events in res` loop of the source: read `data`
from the ready stream; an empty read unregisters the stream, otherwise the
data is appended to that stream's accumulator and echoed to the parent's
corresponding stream.  An event for an unregistered stream is ignored (a
real selector never delivers one). -/
def processEvent (s : DrainState) (e : ReadEvent) : DrainState :=
  match e.stream with
  | StreamId.out =>
    if s.regOut then
      if e.data.isEmpty then { s with regOut := false }
      else { s with sStdout := s.sStdout ++ e.data,
                    echoes := s.echoes ++ [EchoEvent.duringRun StreamId.out e.data] }
    else s
  | StreamId.err =>
    if s.regErr then
      if e.data.isEmpty then { s with regErr := false }
      else { s with sStderr := s.sStderr ++ e.data,
                    echoes := s.echoes ++ [EchoEvent.duringRun StreamId.err e.data] }
    else s

/-- Process all read events of one ready cycle, in order. -/
def processEvents : List ReadEvent → DrainState → DrainState
  | [], s => s
  | e :: rest, s => processEvents rest (processEvent s e)

/-- The `while selector.get_map():` loop of `shellExecWithStuckCheck`,
driven by the child's trace of poll cycles: while some stream is still
registered, a timeout cycle sets `bStuck`, writes the diagnostic to the
parent's stderr, terminates the child and breaks; a ready cycle processes
its read events and continues. -/
def drainLoop : List Cycle → DrainState → DrainState
  | [], s => s
  | c :: rest, s =>
    if s.regOut || s.regErr then
      match c with
      | Cycle.timeout =>
          { s with bStuck := true, terminated := true,
                   echoes := s.echoes ++ [EchoEvent.duringRun StreamId.err stuckMessage] }
      | Cycle.ready evs => drainLoop rest (processEvents evs s)
    else s

/-- Observable behaviour of one spawned child: the poll-cycle trace its
streams produce, and its exit code (`proc.returncode` after
`proc.communicate()`). -/
structure ChildBehavior where
  cycles : List Cycle
  returncode : Nat
  deriving DecidableEq, Repr

/-- Final selector-loop state for a given child behaviour. -/
def drainResult (child : ChildBehavior) : DrainState :=
  drainLoop child.cycles initDrainState

/-- Typed failures of one attempt: `_ProcessStuckError(cmd, timeout)`,
`subprocess.CalledProcessError(returncode, cmd, stdout, stderr)`, or any
other exception (e.g. `FileNotFoundError` from `Popen`), which the retry
loops do not catch. -/
inductive AttemptError where
  | stuck (cmd : List String) (timeout : Nat)
  | called (returncode : Nat) (cmd : List String) (stdout stderr : Str)
  | other
  deriving DecidableEq, Repr

/-- `_Util.shellExecWithStuckCheck(cmdList, envDict)` applied to a child
with the given behaviour: drain both streams; if the loop ended stuck,
raise `_ProcessStuckError` (this test precedes the exit-code test in the
source); otherwise a non-zero exit code raises `CalledProcessError`
carrying the captured output, and a zero exit returns it. -/
def shellExecWithStuckCheck (cmdList : List String)
    (_envDict : List (String × String)) (child : ChildBehavior) :
    Except AttemptError (Str × Str) :=
  let s := drainResult child
  if s.bStuck then Except.error (AttemptError.stuck cmdList STUCK_TIMEOUT)
  else if child.returncode ≠ 0 then
    Except.error (AttemptError.called child.returncode cmdList s.sStdout s.sStderr)
  else Except.ok (s.sStdout, s.sStderr)

/-- `_Util.getGitSpeedEnv()`. -/
def getGitSpeedEnv : List (String × String) :=
  [("GIT_HTTP_LOW_SPEED_LIMIT", "1024"), ("GIT_HTTP_LOW_SPEED_TIME", "60")]

/-- Record of one `Popen` / `subprocess.run` spawn: the argument vector
and the environment passed to it (`none` means the parent's environment is
inherited, as in `cmdCall`, which passes no `env`). -/
structure SpawnRecord where
  argv : List String
  env : Option (List (String × String))
  deriving DecidableEq, Repr

/-- Behaviour of one attempt of the retry loop: either `Popen` itself
raises (no child is spawned), or a child runs with the given behaviour. -/
inductive AttemptBehavior where
  | spawnFail
  | runs (child : ChildBehavior)
  deriving DecidableEq, Repr

/-- Execute one attempt: the spawn records it produces, the parent-side
writes it performs, and its outcome. -/
def runAttempt (cmd : List String) (env : List (String × String)) :
    AttemptBehavior → List SpawnRecord × List EchoEvent × Except AttemptError (Str × Str)
  | AttemptBehavior.spawnFail => ([], [], Except.error AttemptError.other)
  | AttemptBehavior.runs child =>
      ([{ argv := cmd, env := some env }], (drainResult child).echoes,
       shellExecWithStuckCheck cmd env child)

/-- Outcome of a run of the retry loop over the modelled attempt list:
the loop returned normally, re-raised an exception, or exhausted the
modelled behaviours while it would still continue looping. -/
inductive LoopOutcome where
  | returned
  | raised (e : AttemptError)
  | pending
  deriving DecidableEq, Repr

/-- Trace of one run of the `while True` retry loop: number of attempts
made, number of `time.sleep(_RETRY_TIMEOUT)` calls, spawn records and
parent-side writes in order, and the outcome. -/
structure LoopTrace where
  attempts : Nat
  sleeps : Nat
  spawns : List SpawnRecord
  echoes : List EchoEvent
  outcome : LoopOutcome
  deriving DecidableEq, Repr

/-- The shared `while True` retry loop of `clone` and `pull`: on success
break; on `_ProcessStuckError` sleep `_RETRY_TIMEOUT` and retry; on
`CalledProcessError` re-raise if `returncode > 128` and otherwise sleep
and retry; any other exception is not caught and propagates. -/
def gitRetryLoop (cmd : List String) (env : List (String × String)) :
    List AttemptBehavior → LoopTrace
  | [] => { attempts := 0, sleeps := 0, spawns := [], echoes := [],
            outcome := LoopOutcome.pending }
  | ab :: rest =>
    let a := runAttempt cmd env ab
    match a.2.2 with
    | Except.ok _ =>
        { attempts := 1, sleeps := 0, spawns := a.1, echoes := a.2.1,
          outcome := LoopOutcome.returned }
    | Except.error (AttemptError.stuck _ _) =>
        let tr := gitRetryLoop cmd env rest
        { attempts := tr.attempts + 1, sleeps := tr.sleeps + 1,
          spawns := a.1 ++ tr.spawns, echoes := a.2.1 ++ tr.echoes,
          outcome := tr.outcome }
    | Except.error (AttemptError.called rc c o e) =>
        if rc > 128 then
          { attempts := 1, sleeps := 0, spawns := a.1, echoes := a.2.1,
            outcome := LoopOutcome.raised (AttemptError.called rc c o e) }
        else
          let tr := gitRetryLoop cmd env rest
          { attempts := tr.attempts + 1, sleeps := tr.sleeps + 1,
            spawns := a.1 ++ tr.spawns, echoes := a.2.1 ++ tr.echoes,
            outcome := tr.outcome }
    | Except.error AttemptError.other =>
        { attempts := 1, sleeps := 0, spawns := a.1, echoes := a.2.1,
          outcome := LoopOutcome.raised AttemptError.other }

/-- Argument vector `"/usr/bin/git" "clone" + args` of `clone`. -/
def cloneCmd (args : List String) : List String :=
  ["/usr/bin/git", "clone"] ++ args

/-- `clone(*args)`. -/
def clone (args : List String) (bs : List AttemptBehavior) : LoopTrace :=
  gitRetryLoop (cloneCmd args) getGitSpeedEnv bs

/-- The three rebase-mode flags named in `pull`'s assertion. -/
def rebaseFlags : List String := ["-r", "--rebase", "--no-rebase"]

/-- The source's assertion condition, shaped exactly like
`not any(x not in args for x in ["-r", "--rebase", "--no-rebase"])`. -/
def pullAssertCond (args : List String) : Bool :=
  !(rebaseFlags.any (fun x => !(args.contains x)))

/-- Argument vector `"/usr/bin/git" "pull" "--rebase" + args` of `pull`. -/
def pullCmd (args : List String) : List String :=
  ["/usr/bin/git", "pull", "--rebase"] ++ args

/-- `pull(*args)`: `none` models the `AssertionError` raised before any
process is spawned when the assertion condition fails; otherwise the same
retry loop as `clone` runs with the pull argument vector. -/
def pull (args : List String) (bs : List AttemptBehavior) : Option LoopTrace :=
  if pullAssertCond args then
    some (gitRetryLoop (pullCmd args) getGitSpeedEnv bs)
  else none

/-- Number of rebase-mode flags present among `args` — the counting notion
the claim about `pull`'s precondition is phrased with. -/
def rebaseFlagCount (args : List String) : Nat :=
  (rebaseFlags.filter (fun x => args.contains x)).length

/-- Behaviour of the child of one `cmdCall`: its combined output (the
source merges stderr into stdout via `stderr=subprocess.STDOUT`) and its
exit code. -/
structure RunBehavior where
  output : Str
  returncode : Nat
  deriving DecidableEq, Repr

/-- `subprocess.CalledProcessError` as raised by `check_returncode()` in
`cmdCall`: exit code, argument vector, combined output. -/
structure CmdError where
  returncode : Nat
  cmd : List String
  output : Str
  deriving DecidableEq, Repr

/-- Result of one `cmdCall`: the spawn record (no `env` is passed, so the
parent environment is inherited), the parent-side writes, and the outcome. -/
structure CmdCallResult where
  record : SpawnRecord
  echoes : List EchoEvent
  result : Except CmdError Str
  deriving Repr

/-- Python's `str.rstrip()`: drop trailing whitespace. -/
def pyRstrip (s : Str) : Str :=
  (s.reverse.dropWhile Char.isWhitespace).reverse

/-- `_Util.cmdCall(cmd, *kargs)`: run the command to completion capturing
combined output; on a non-zero exit code, print the captured output (this
happens after the child has exited) and raise `CalledProcessError`;
otherwise return the output right-stripped. -/
def cmdCall (cmd : String) (kargs : List String) (b : RunBehavior) : CmdCallResult :=
  { record := { argv := cmd :: kargs, env := none },
    echoes :=
      if b.returncode ≠ 0 then [EchoEvent.afterExit (b.output ++ ['\n'])] else [],
    result :=
      if b.returncode ≠ 0 then
        Except.error { returncode := b.returncode, cmd := cmd :: kargs,
                       output := b.output }
      else Except.ok (pyRstrip b.output) }

/-- Trace of one `clean` call: spawn records in order, parent-side writes
in order, and the outcome. -/
structure CleanTrace where
  spawns : List SpawnRecord
  echoes : List EchoEvent
  result : Except CmdError Unit
  deriving Repr

/-- `clean(dir_name)`: `cmdCall git -C dir reset --hard`, then — only if
that did not raise — `cmdCall git -C dir clean -xfd`. -/
def clean (dirName : String) (b1 b2 : RunBehavior) : CleanTrace :=
  let c1 := cmdCall "/usr/bin/git" ["-C", dirName, "reset", "--hard"] b1
  match c1.result with
  | Except.error e =>
      { spawns := [c1.record], echoes := c1.echoes, result := Except.error e }
  | Except.ok _ =>
    let c2 := cmdCall "/usr/bin/git" ["-C", dirName, "clean", "-xfd"] b2
    match c2.result with
    | Except.error e =>
        { spawns := [c1.record, c2.record], echoes := c1.echoes ++ c2.echoes,
          result := Except.error e }
    | Except.ok _ =>
        { spawns := [c1.record, c2.record], echoes := c1.echoes ++ c2.echoes,
          result := Except.ok () }

/-- Data read from one stream across a list of read events, in order. -/
def sdEvents (sid : StreamId) (evs : List ReadEvent) : List Str :=
  evs.filterMap (fun e => if e.stream = sid then some e.data else none)

/-- Data read from one stream across a whole trace, in order: the byte
chunks the child wrote to that stream, with a final `[]` marking
end-of-stream when the stream was closed. -/
def streamData (sid : StreamId) : List Cycle → List Str
  | [] => []
  | Cycle.timeout :: rest => streamData sid rest
  | Cycle.ready evs :: rest => sdEvents sid evs ++ streamData sid rest

/-- Parent-side writes one ready cycle's events cause: one `duringRun`
echo per nonempty read, in read order. -/
def echoesOfEvents (evs : List ReadEvent) : List EchoEvent :=
  evs.filterMap (fun e =>
    if e.data.isEmpty then none
    else some (EchoEvent.duringRun e.stream e.data))

/-- Parent-side writes a non-stuck trace causes, in temporal order. -/
def liveEchoes : List Cycle → List EchoEvent
  | [] => []
  | Cycle.timeout :: _ => []
  | Cycle.ready evs :: rest => echoesOfEvents evs ++ liveEchoes rest

/-- True when no poll cycle of the trace timed out. -/
def noTimeoutB : List Cycle → Bool
  | [] => true
  | Cycle.timeout :: _ => false
  | Cycle.ready _ :: rest => noTimeoutB rest

/-- Well-formedness of one stream's chunk sequence relative to its
registration state: an unregistered (closed) stream produces no further
reads, and after an empty read (end-of-stream) the stream is closed.
This is exactly what a real selector delivers. -/
def wfEvs : Bool → List Str → Bool
  | _, [] => true
  | false, _ :: _ => false
  | true, d :: rest => wfEvs (!d.isEmpty) rest

/-- Registration state of a stream after a sequence of reads. -/
def regAfter : Bool → List Str → Bool
  | reg, [] => reg
  | reg, d :: rest => regAfter (reg && !d.isEmpty) rest

/-- Concatenation of a list of chunks. -/
def joinStr : List Str → Str
  | [] => []
  | d :: rest => d ++ joinStr rest

/-- The nonempty chunks of a sequence of reads. -/
def neChunks (l : List Str) : List Str :=
  l.filter (fun d => !d.isEmpty)

/-- Chunks echoed to one parent stream, in order, by a list of writes. -/
def echoedTo (sid : StreamId) (evs : List EchoEvent) : List Str :=
  evs.filterMap (fun e =>
    match e with
    | EchoEvent.duringRun s c => if s = sid then some c else none
    | EchoEvent.afterExit _ => none)

/-- An attempt the retry loop classifies as retryable: the run was
declared stuck, or the child exited with a code `c`, `0 < c ≤ 128`. -/
def retryableAttempt : AttemptBehavior → Bool
  | AttemptBehavior.spawnFail => false
  | AttemptBehavior.runs child =>
      (drainResult child).bStuck ||
        (decide (0 < child.returncode) && decide (child.returncode ≤ 128))

/-- An attempt that succeeds: not stuck and exit code `0`. -/
def successAttempt : AttemptBehavior → Bool
  | AttemptBehavior.spawnFail => false
  | AttemptBehavior.runs child =>
      !(drainResult child).bStuck && (child.returncode == 0)

/-- Exit Status, as the specification's data model tags it. -/
inductive ExitStatus where
  | success
  | failureCode (n : Nat)
  | killedBySignal (n : Nat)
  deriving DecidableEq, Repr

/-- Exit-status classification following the specification's stated
convention (spec §3 Data Model): code `0` is `Success`, a positive code up
to `128` is `FailureCode(c)`, and a code above `128` is interpreted as
termination by signal `c - 128`.  This definition follows the spec's
words and is compared against the source's behaviour. -/
def specExitStatus (c : Nat) : ExitStatus :=
  if c = 0 then ExitStatus.success
  else if c ≤ 128 then ExitStatus.failureCode c
  else ExitStatus.killedBySignal (c - 128)

theorem joinStr_append (l1 l2 : List Str) :
    joinStr (l1 ++ l2) = joinStr l1 ++ joinStr l2 := by
  induction l1 with
  | nil => simp [joinStr]
  | cons d rest ih => simp [joinStr, ih]

theorem wfEvs_append (l1 l2 : List Str) : ∀ reg : Bool,
    wfEvs reg (l1 ++ l2) = (wfEvs reg l1 && wfEvs (regAfter reg l1) l2) := by
  induction l1 with
  | nil =>
    intro reg
    simp [wfEvs, regAfter]
  | cons d rest ih =>
    intro reg
    cases reg with
    | false => simp [wfEvs]
    | true => simp [wfEvs, regAfter, ih]

theorem regAfter_false (l : List Str) : regAfter false l = false := by
  induction l with
  | nil => rfl
  | cons d rest ih => simp [regAfter, ih]

theorem wfEvs_false_eq_nil (l : List Str) (h : wfEvs false l = true) : l = [] := by
  cases l with
  | nil => rfl
  | cons d rest => simp [wfEvs] at h

theorem sdEvents_cons (sid : StreamId) (e : ReadEvent) (rest : List ReadEvent) :
    sdEvents sid (e :: rest) =
      if e.stream = sid then e.data :: sdEvents sid rest else sdEvents sid rest := by
  by_cases h : e.stream = sid
  · simp [sdEvents, List.filterMap_cons, h]
  · simp [sdEvents, List.filterMap_cons, h]

theorem echoesOfEvents_cons (e : ReadEvent) (rest : List ReadEvent) :
    echoesOfEvents (e :: rest) =
      if e.data.isEmpty then echoesOfEvents rest
      else EchoEvent.duringRun e.stream e.data :: echoesOfEvents rest := by
  obtain ⟨stream, data⟩ := e
  cases data with
  | nil => simp [echoesOfEvents, List.filterMap_cons]
  | cons c cs => simp [echoesOfEvents, List.filterMap_cons]

theorem processEvents_spec : ∀ (evs : List ReadEvent) (s : DrainState),
    wfEvs s.regOut (sdEvents StreamId.out evs) = true →
    wfEvs s.regErr (sdEvents StreamId.err evs) = true →
    processEvents evs s =
      { s with
        sStdout := s.sStdout ++ joinStr (sdEvents StreamId.out evs),
        sStderr := s.sStderr ++ joinStr (sdEvents StreamId.err evs),
        echoes := s.echoes ++ echoesOfEvents evs,
        regOut := regAfter s.regOut (sdEvents StreamId.out evs),
        regErr := regAfter s.regErr (sdEvents StreamId.err evs) } := by
  intro evs
  induction evs with
  | nil =>
    intro s _ _
    simp [processEvents, sdEvents, joinStr, echoesOfEvents, regAfter]
  | cons e rest ih =>
    intro s hOut hErr
    obtain ⟨stream, data⟩ := e
    cases stream with
    | out =>
      have hsdo : sdEvents StreamId.out (ReadEvent.mk StreamId.out data :: rest) =
          data :: sdEvents StreamId.out rest := by
        simp [sdEvents_cons]
      have hsde : sdEvents StreamId.err (ReadEvent.mk StreamId.out data :: rest) =
          sdEvents StreamId.err rest := by
        simp [sdEvents_cons]
      rw [hsdo] at hOut ⊢
      rw [hsde] at hErr ⊢
      cases hreg : s.regOut with
      | false =>
        rw [hreg] at hOut
        simp [wfEvs] at hOut
      | true =>
        rw [hreg] at hOut
        cases data with
        | nil =>
          simp only [wfEvs, List.isEmpty_nil, Bool.not_true] at hOut
          have hstep : processEvents (ReadEvent.mk StreamId.out [] :: rest) s =
              processEvents rest { s with regOut := false } := by
            simp [processEvents, processEvent, hreg]
          rw [hstep, ih { s with regOut := false } (by simpa using hOut) (by simpa using hErr)]
          simp [joinStr, regAfter, hreg, regAfter_false, echoesOfEvents_cons]
        | cons c cs =>
          simp only [wfEvs, List.isEmpty_cons, Bool.not_false] at hOut
          have hstep : processEvents (ReadEvent.mk StreamId.out (c :: cs) :: rest) s =
              processEvents rest
                { s with sStdout := s.sStdout ++ (c :: cs),
                         echoes := s.echoes ++
                           [EchoEvent.duringRun StreamId.out (c :: cs)] } := by
            simp [processEvents, processEvent, hreg]
          rw [hstep, ih _ (by simpa [hreg] using hOut) (by simpa using hErr)]
          simp [joinStr, regAfter, hreg, echoesOfEvents_cons]
    | err =>
      have hsdo : sdEvents StreamId.out (ReadEvent.mk StreamId.err data :: rest) =
          sdEvents StreamId.out rest := by
        simp [sdEvents_cons]
      have hsde : sdEvents StreamId.err (ReadEvent.mk StreamId.err data :: rest) =
          data :: sdEvents StreamId.err rest := by
        simp [sdEvents_cons]
      rw [hsdo] at hOut ⊢
      rw [hsde] at hErr ⊢
      cases hreg : s.regErr with
      | false =>
        rw [hreg] at hErr
        simp [wfEvs] at hErr
      | true =>
        rw [hreg] at hErr
        cases data with
        | nil =>
          simp only [wfEvs, List.isEmpty_nil, Bool.not_true] at hErr
          have hstep : processEvents (ReadEvent.mk StreamId.err [] :: rest) s =
              processEvents rest { s with regErr := false } := by
            simp [processEvents, processEvent, hreg]
          rw [hstep, ih { s with regErr := false } (by simpa using hOut) (by simpa using hErr)]
          simp [joinStr, regAfter, hreg, regAfter_false, echoesOfEvents_cons]
        | cons c cs =>
          simp only [wfEvs, List.isEmpty_cons, Bool.not_false] at hErr
          have hstep : processEvents (ReadEvent.mk StreamId.err (c :: cs) :: rest) s =
              processEvents rest
                { s with sStderr := s.sStderr ++ (c :: cs),
                         echoes := s.echoes ++
                           [EchoEvent.duringRun StreamId.err (c :: cs)] } := by
            simp [processEvents, processEvent, hreg]
          rw [hstep, ih _ (by simpa using hOut) (by simpa [hreg] using hErr)]
          simp [joinStr, regAfter, hreg, echoesOfEvents_cons]

theorem regAfter_append (l1 l2 : List Str) : ∀ reg : Bool,
    regAfter reg (l1 ++ l2) = regAfter (regAfter reg l1) l2 := by
  induction l1 with
  | nil => intro reg; simp [regAfter]
  | cons d rest ih => intro reg; simp [regAfter, ih]

theorem sdEvents_nil_both (evs : List ReadEvent)
    (hOut : sdEvents StreamId.out evs = [])
    (hErr : sdEvents StreamId.err evs = []) : evs = [] := by
  cases evs with
  | nil => rfl
  | cons e rest =>
    obtain ⟨stream, data⟩ := e
    cases stream with
    | out =>
      rw [sdEvents_cons] at hOut
      simp at hOut
    | err =>
      rw [sdEvents_cons] at hErr
      simp at hErr

theorem liveEchoes_nil_of_noData : ∀ cycles : List Cycle,
    noTimeoutB cycles = true →
    streamData StreamId.out cycles = [] →
    streamData StreamId.err cycles = [] →
    liveEchoes cycles = [] := by
  intro cycles
  induction cycles with
  | nil => intro _ _ _; rfl
  | cons c rest ih =>
    intro hnt hOut hErr
    cases c with
    | timeout => simp [noTimeoutB] at hnt
    | ready evs =>
      simp only [streamData] at hOut hErr
      have h1 := List.append_eq_nil.mp hOut
      have h2 := List.append_eq_nil.mp hErr
      have hevs := sdEvents_nil_both evs h1.1 h2.1
      subst hevs
      simp only [noTimeoutB] at hnt
      simp [liveEchoes, echoesOfEvents, ih hnt h1.2 h2.2]

theorem processEvents_keeps_stuck : ∀ (evs : List ReadEvent) (s : DrainState),
    (processEvents evs s).bStuck = s.bStuck ∧
    (processEvents evs s).terminated = s.terminated := by
  intro evs
  induction evs with
  | nil => intro s; exact ⟨rfl, rfl⟩
  | cons e rest ih =>
    intro s
    have he : (processEvent s e).bStuck = s.bStuck ∧
        (processEvent s e).terminated = s.terminated := by
      obtain ⟨stream, data⟩ := e
      cases stream <;> simp only [processEvent] <;> split_ifs <;> simp
    have h := ih (processEvent s e)
    refine ⟨?_, ?_⟩
    · rw [show processEvents (e :: rest) s = processEvents rest (processEvent s e) from rfl,
        h.1, he.1]
    · rw [show processEvents (e :: rest) s = processEvents rest (processEvent s e) from rfl,
        h.2, he.2]

theorem drainLoop_stuck_terminated : ∀ (cycles : List Cycle) (s : DrainState),
    (s.bStuck = true → s.terminated = true) →
    (drainLoop cycles s).bStuck = true → (drainLoop cycles s).terminated = true := by
  intro cycles
  induction cycles with
  | nil => intro s h; exact h
  | cons c rest ih =>
    intro s h
    by_cases hreg : (s.regOut || s.regErr) = true
    · cases c with
      | timeout =>
        intro _
        simp [drainLoop, hreg]
      | ready evs =>
        have hstep : drainLoop (Cycle.ready evs :: rest) s =
            drainLoop rest (processEvents evs s) := by
          simp [drainLoop, hreg]
        rw [hstep]
        apply ih
        intro hb
        have hpe := processEvents_keeps_stuck evs s
        rw [hpe.2]
        rw [hpe.1] at hb
        exact h hb
    · have hreg2 : (s.regOut || s.regErr) = false := by
        simpa using hreg
      have hstep : drainLoop (c :: rest) s = s := by
        cases c <;> simp [drainLoop, hreg2]
      rw [hstep]
      exact h

theorem drainLoop_spec : ∀ (cycles : List Cycle) (s : DrainState),
    noTimeoutB cycles = true →
    wfEvs s.regOut (streamData StreamId.out cycles) = true →
    wfEvs s.regErr (streamData StreamId.err cycles) = true →
    drainLoop cycles s =
      { s with
        sStdout := s.sStdout ++ joinStr (streamData StreamId.out cycles),
        sStderr := s.sStderr ++ joinStr (streamData StreamId.err cycles),
        echoes := s.echoes ++ liveEchoes cycles,
        regOut := regAfter s.regOut (streamData StreamId.out cycles),
        regErr := regAfter s.regErr (streamData StreamId.err cycles) } := by
  intro cycles
  induction cycles with
  | nil =>
    intro s _ _ _
    simp [drainLoop, streamData, joinStr, liveEchoes, regAfter]
  | cons c rest ih =>
    intro s hnt hOut hErr
    cases c with
    | timeout => simp [noTimeoutB] at hnt
    | ready evs =>
      simp only [streamData] at hOut hErr ⊢
      simp only [noTimeoutB] at hnt
      rw [wfEvs_append] at hOut hErr
      simp only [Bool.and_eq_true] at hOut hErr
      obtain ⟨hO1, hO2⟩ := hOut
      obtain ⟨hE1, hE2⟩ := hErr
      by_cases hreg : (s.regOut || s.regErr) = true
      · have hstep : drainLoop (Cycle.ready evs :: rest) s =
            drainLoop rest (processEvents evs s) := by
          simp [drainLoop, hreg]
        rw [hstep, processEvents_spec evs s hO1 hE1]
        rw [ih _ hnt (by simpa using hO2) (by simpa using hE2)]
        simp [liveEchoes, joinStr_append, regAfter_append, List.append_assoc]
      · have hreg2 : (s.regOut || s.regErr) = false := by
          simpa using hreg
        have hro : s.regOut = false := (Bool.or_eq_false_iff.mp hreg2).1
        have hre : s.regErr = false := (Bool.or_eq_false_iff.mp hreg2).2
        rw [hro] at hO1 hO2
        rw [hre] at hE1 hE2
        have hnO1 := wfEvs_false_eq_nil _ hO1
        have hnE1 := wfEvs_false_eq_nil _ hE1
        rw [regAfter_false] at hO2 hE2
        have hnO2 := wfEvs_false_eq_nil _ hO2
        have hnE2 := wfEvs_false_eq_nil _ hE2
        have hevs := sdEvents_nil_both evs hnO1 hnE1
        subst hevs
        have hstep : drainLoop (Cycle.ready [] :: rest) s = s := by
          simp [drainLoop, hreg2]
        rw [hstep]
        simp [liveEchoes, echoesOfEvents, hnO1, hnE1, hnO2, hnE2,
          liveEchoes_nil_of_noData rest hnt hnO2 hnE2, joinStr, regAfter, hro, hre,
          regAfter_false]
        cases s
        simp_all

theorem echoedTo_cons_during (sid s : StreamId) (c : Str) (l : List EchoEvent) :
    echoedTo sid (EchoEvent.duringRun s c :: l) =
      if s = sid then c :: echoedTo sid l else echoedTo sid l := by
  by_cases h : s = sid
  · simp [echoedTo, List.filterMap_cons, h]
  · simp [echoedTo, List.filterMap_cons, h]

theorem neChunks_cons (d : Str) (l : List Str) :
    neChunks (d :: l) = if d.isEmpty then neChunks l else d :: neChunks l := by
  cases d with
  | nil => simp [neChunks, List.filter_cons]
  | cons c cs => simp [neChunks, List.filter_cons]

theorem echoedTo_echoesOfEvents (sid : StreamId) : ∀ evs : List ReadEvent,
    echoedTo sid (echoesOfEvents evs) = neChunks (sdEvents sid evs) := by
  intro evs
  induction evs with
  | nil => rfl
  | cons e rest ih =>
    obtain ⟨stream, data⟩ := e
    rw [echoesOfEvents_cons, sdEvents_cons]
    by_cases hs : stream = sid
    · subst hs
      cases data with
      | nil => simp [neChunks_cons, ih]
      | cons c cs => simp [echoedTo_cons_during, neChunks_cons, ih]
    · cases data with
      | nil => simp [hs, neChunks_cons, ih]
      | cons c cs => simp [echoedTo_cons_during, hs, ih]

theorem echoedTo_liveEchoes (sid : StreamId) : ∀ cycles : List Cycle,
    noTimeoutB cycles = true →
    echoedTo sid (liveEchoes cycles) = neChunks (streamData sid cycles) := by
  intro cycles
  induction cycles with
  | nil => intro _; rfl
  | cons c rest ih =>
    intro hnt
    cases c with
    | timeout => simp [noTimeoutB] at hnt
    | ready evs =>
      simp only [noTimeoutB] at hnt
      simp only [liveEchoes, streamData, echoedTo, List.filterMap_append, neChunks,
        List.filter_append]
      rw [show List.filterMap _ (echoesOfEvents evs) = echoedTo sid (echoesOfEvents evs) from rfl,
        echoedTo_echoesOfEvents]
      rw [show List.filterMap _ (liveEchoes rest) = echoedTo sid (liveEchoes rest) from rfl,
        ih hnt]
      rfl

theorem gitRetryLoop_cons_success (cmd : List String) (env : List (String × String))
    (ab : AttemptBehavior) (rest : List AttemptBehavior)
    (h : successAttempt ab = true) :
    gitRetryLoop cmd env (ab :: rest) =
      { attempts := 1, sleeps := 0, spawns := (runAttempt cmd env ab).1,
        echoes := (runAttempt cmd env ab).2.1, outcome := LoopOutcome.returned } := by
  cases ab with
  | spawnFail => simp [successAttempt] at h
  | runs child =>
    simp only [successAttempt, Bool.and_eq_true, Bool.not_eq_true', beq_iff_eq] at h
    obtain ⟨hst, hrc⟩ := h
    simp [gitRetryLoop, runAttempt, shellExecWithStuckCheck, hst, hrc]

theorem gitRetryLoop_cons_retryable (cmd : List String) (env : List (String × String))
    (ab : AttemptBehavior) (rest : List AttemptBehavior)
    (h : retryableAttempt ab = true) :
    gitRetryLoop cmd env (ab :: rest) =
      { attempts := (gitRetryLoop cmd env rest).attempts + 1,
        sleeps := (gitRetryLoop cmd env rest).sleeps + 1,
        spawns := (runAttempt cmd env ab).1 ++ (gitRetryLoop cmd env rest).spawns,
        echoes := (runAttempt cmd env ab).2.1 ++ (gitRetryLoop cmd env rest).echoes,
        outcome := (gitRetryLoop cmd env rest).outcome } := by
  cases ab with
  | spawnFail => simp [retryableAttempt] at h
  | runs child =>
    simp only [retryableAttempt, Bool.or_eq_true, Bool.and_eq_true,
      decide_eq_true_eq] at h
    cases hst : (drainResult child).bStuck with
    | true =>
      simp [gitRetryLoop, runAttempt, shellExecWithStuckCheck, hst]
    | false =>
      rw [hst] at h
      simp only [Bool.false_eq_true, false_or] at h
      obtain ⟨h1, h2⟩ := h
      have hne : child.returncode ≠ 0 := Nat.pos_iff_ne_zero.mp h1
      have hle : ¬ child.returncode > 128 := by omega
      simp [gitRetryLoop, runAttempt, shellExecWithStuckCheck, hst, hne, hle]

theorem gitRetryLoop_retryable_front (cmd : List String) (env : List (String × String)) :
    ∀ (fs rest : List AttemptBehavior),
    (∀ ab ∈ fs, retryableAttempt ab = true) →
    (gitRetryLoop cmd env (fs ++ rest)).attempts
        = fs.length + (gitRetryLoop cmd env rest).attempts ∧
    (gitRetryLoop cmd env (fs ++ rest)).sleeps
        = fs.length + (gitRetryLoop cmd env rest).sleeps ∧
    (gitRetryLoop cmd env (fs ++ rest)).outcome = (gitRetryLoop cmd env rest).outcome := by
  intro fs
  induction fs with
  | nil => intro rest _; simp
  | cons f fs ih =>
    intro rest h
    have hf : retryableAttempt f = true := h f (List.mem_cons_self f fs)
    have hrest : ∀ ab ∈ fs, retryableAttempt ab = true := by
      intro ab hab
      exact h ab (List.mem_cons_of_mem f hab)
    obtain ⟨ha, hs, ho⟩ := ih rest hrest
    rw [List.cons_append, gitRetryLoop_cons_retryable cmd env f (fs ++ rest) hf]
    refine ⟨?_, ?_, ?_⟩
    · simp [ha]
      omega
    · simp [hs]
      omega
    · simp [ho]

theorem gitRetryLoop_spawn_env (cmd : List String) (env : List (String × String)) :
    ∀ (bs : List AttemptBehavior) (r : SpawnRecord),
      r ∈ (gitRetryLoop cmd env bs).spawns → r.argv = cmd ∧ r.env = some env := by
  intro bs
  induction bs with
  | nil =>
    intro r hr
    simp [gitRetryLoop] at hr
  | cons ab rest ih =>
    intro r hr
    cases ab with
    | spawnFail =>
      simp [gitRetryLoop, runAttempt] at hr
    | runs child =>
      cases hres : shellExecWithStuckCheck cmd env child with
      | ok v =>
        simp [gitRetryLoop, runAttempt, hres] at hr
        subst hr
        exact ⟨rfl, rfl⟩
      | error e =>
        cases e with
        | stuck c t =>
          simp [gitRetryLoop, runAttempt, hres] at hr
          rcases hr with hr | hr
          · subst hr; exact ⟨rfl, rfl⟩
          · exact ih r hr
        | called rc c o er =>
          by_cases hrc : rc > 128
          · simp [gitRetryLoop, runAttempt, hres, hrc] at hr
            subst hr
            exact ⟨rfl, rfl⟩
          · simp [gitRetryLoop, runAttempt, hres, hrc] at hr
            rcases hr with hr | hr
            · subst hr; exact ⟨rfl, rfl⟩
            · exact ih r hr
        | other =>
          simp [gitRetryLoop, runAttempt, hres] at hr
          subst hr
          exact ⟨rfl, rfl⟩

theorem processEvents_echo_shape : ∀ (evs : List ReadEvent) (s : DrainState)
    (x : EchoEvent), x ∈ (processEvents evs s).echoes →
    x ∈ s.echoes ∨ ∃ sid c, x = EchoEvent.duringRun sid c := by
  intro evs
  induction evs with
  | nil =>
    intro s x hx
    exact Or.inl hx
  | cons e rest ih =>
    intro s x hx
    rcases ih (processEvent s e) x hx with h | h
    · obtain ⟨stream, data⟩ := e
      cases stream with
      | out =>
        simp only [processEvent] at h
        split_ifs at h with h1 h2
        · exact Or.inl h
        · simp at h
          rcases h with h | h
          · exact Or.inl h
          · exact Or.inr ⟨StreamId.out, data, h⟩
        · exact Or.inl h
      | err =>
        simp only [processEvent] at h
        split_ifs at h with h1 h2
        · exact Or.inl h
        · simp at h
          rcases h with h | h
          · exact Or.inl h
          · exact Or.inr ⟨StreamId.err, data, h⟩
        · exact Or.inl h
    · exact Or.inr h

theorem drainLoop_echo_shape : ∀ (cycles : List Cycle) (s : DrainState)
    (x : EchoEvent), x ∈ (drainLoop cycles s).echoes →
    x ∈ s.echoes ∨ ∃ sid c, x = EchoEvent.duringRun sid c := by
  intro cycles
  induction cycles with
  | nil =>
    intro s x hx
    exact Or.inl hx
  | cons c rest ih =>
    intro s x hx
    by_cases hreg : (s.regOut || s.regErr) = true
    · cases c with
      | timeout =>
        simp [drainLoop, hreg] at hx
        rcases hx with hx | hx
        · exact Or.inl hx
        · exact Or.inr ⟨StreamId.err, stuckMessage, hx⟩
      | ready evs =>
        have hstep : drainLoop (Cycle.ready evs :: rest) s =
            drainLoop rest (processEvents evs s) := by
          simp [drainLoop, hreg]
        rw [hstep] at hx
        rcases ih (processEvents evs s) x hx with h | h
        · exact processEvents_echo_shape evs s x h
        · exact Or.inr h
    · have hreg2 : (s.regOut || s.regErr) = false := by simpa using hreg
      have hstep : drainLoop (c :: rest) s = s := by
        cases c <;> simp [drainLoop, hreg2]
      rw [hstep] at hx
      exact Or.inl hx

theorem gitRetryLoop_echo_shape (cmd : List String) (env : List (String × String)) :
    ∀ (bs : List AttemptBehavior) (x : EchoEvent),
      x ∈ (gitRetryLoop cmd env bs).echoes →
      ∃ sid c, x = EchoEvent.duringRun sid c := by
  intro bs
  induction bs with
  | nil =>
    intro x hx
    simp [gitRetryLoop] at hx
  | cons ab rest ih =>
    intro x hx
    have hdrain : ∀ child : ChildBehavior, x ∈ (drainResult child).echoes →
        ∃ sid c, x = EchoEvent.duringRun sid c := by
      intro child hc
      rcases drainLoop_echo_shape child.cycles initDrainState x hc with h | h
      · simp [initDrainState] at h
      · exact h
    cases ab with
    | spawnFail =>
      simp [gitRetryLoop, runAttempt] at hx
    | runs child =>
      cases hres : shellExecWithStuckCheck cmd env child with
      | ok v =>
        simp [gitRetryLoop, runAttempt, hres] at hx
        exact hdrain child hx
      | error e =>
        cases e with
        | stuck c t =>
          simp [gitRetryLoop, runAttempt, hres] at hx
          rcases hx with hx | hx
          · exact hdrain child hx
          · exact ih x hx
        | called rc c o er =>
          by_cases hrc : rc > 128
          · simp [gitRetryLoop, runAttempt, hres, hrc] at hx
            exact hdrain child hx
          · simp [gitRetryLoop, runAttempt, hres, hrc] at hx
            rcases hx with hx | hx
            · exact hdrain child hx
            · exact ih x hx
        | other =>
          simp [gitRetryLoop, runAttempt, hres] at hx
          exact hdrain child hx

/-- C1: on an attempt of `clone` or `pull` that fails with
`CalledProcessError` whose exit code is above 128 (killed by signal), the
error is re-raised to the caller immediately: the whole remaining run
performs one attempt (the failing one), zero `_RETRY_TIMEOUT` sleeps, and
the behaviours of any later attempts (`rest`) are never consulted. -/
theorem clone_pull_signal_exit_no_retry
    (args : List String) (child : ChildBehavior) (rest : List AttemptBehavior)
    (hns : (drainResult child).bStuck = false)
    (hrc : child.returncode > 128) :
    clone args (AttemptBehavior.runs child :: rest) =
      { attempts := 1, sleeps := 0,
        spawns := [{ argv := cloneCmd args, env := some getGitSpeedEnv }],
        echoes := (drainResult child).echoes,
        outcome := LoopOutcome.raised (AttemptError.called child.returncode
          (cloneCmd args) (drainResult child).sStdout (drainResult child).sStderr) } ∧
    (pullAssertCond args = true →
      pull args (AttemptBehavior.runs child :: rest) =
        some { attempts := 1, sleeps := 0,
               spawns := [{ argv := pullCmd args, env := some getGitSpeedEnv }],
               echoes := (drainResult child).echoes,
               outcome := LoopOutcome.raised (AttemptError.called child.returncode
                 (pullCmd args) (drainResult child).sStdout (drainResult child).sStderr) }) := by
  have hne : child.returncode ≠ 0 := by omega
  constructor
  · simp [clone, gitRetryLoop, runAttempt, shellExecWithStuckCheck, hns, hne, hrc]
  · intro hc
    simp [pull, hc, gitRetryLoop, runAttempt, shellExecWithStuckCheck, hns, hne, hrc]

theorem clone_pull_signal_exit_no_retry_witness :
    clone [] [AttemptBehavior.runs (ChildBehavior.mk [] 143)] =
      { attempts := 1, sleeps := 0,
        spawns := [{ argv := cloneCmd [], env := some getGitSpeedEnv }],
        echoes := [],
        outcome := LoopOutcome.raised (AttemptError.called 143 (cloneCmd []) [] []) } :=
  (clone_pull_signal_exit_no_retry [] (ChildBehavior.mk [] 143) []
    (by decide) (by decide)).1

/-- C2: every attempt of `clone` or `pull` that fails retryably (stuck, or
exit code `0 < c ≤ 128`) is followed by one `_RETRY_TIMEOUT` (1 s) sleep
and a re-invocation; there is no attempt cap: any number `n` of such
failures followed by a success makes the operation return on attempt
`n + 1`, with `n` sleeps. -/
theorem clone_pull_retry_until_success
    (args : List String) (fs : List AttemptBehavior) (ab : AttemptBehavior)
    (rest : List AttemptBehavior)
    (hfs : ∀ b ∈ fs, retryableAttempt b = true)
    (hab : successAttempt ab = true) :
    ((clone args (fs ++ ab :: rest)).attempts = fs.length + 1 ∧
     (clone args (fs ++ ab :: rest)).sleeps = fs.length ∧
     (clone args (fs ++ ab :: rest)).outcome = LoopOutcome.returned) ∧
    (pullAssertCond args = true →
      ∀ tr, pull args (fs ++ ab :: rest) = some tr →
        tr.attempts = fs.length + 1 ∧ tr.sleeps = fs.length ∧
        tr.outcome = LoopOutcome.returned) ∧
    RETRY_TIMEOUT = 1 := by
  have hstep : ∀ (cmd : List String) (env : List (String × String)),
      (gitRetryLoop cmd env (fs ++ ab :: rest)).attempts = fs.length + 1 ∧
      (gitRetryLoop cmd env (fs ++ ab :: rest)).sleeps = fs.length ∧
      (gitRetryLoop cmd env (fs ++ ab :: rest)).outcome = LoopOutcome.returned := by
    intro cmd env
    obtain ⟨ha, hs, ho⟩ := gitRetryLoop_retryable_front cmd env fs (ab :: rest) hfs
    rw [gitRetryLoop_cons_success cmd env ab rest hab] at ha hs ho
    exact ⟨by simpa using ha, by simpa using hs, by simpa using ho⟩
  refine ⟨hstep (cloneCmd args) getGitSpeedEnv, ?_, rfl⟩
  intro hc tr htr
  have := hstep (pullCmd args) getGitSpeedEnv
  simp [pull, hc] at htr
  rw [← htr]
  exact this

theorem clone_pull_retry_until_success_witness :
    (clone [] ([AttemptBehavior.runs (ChildBehavior.mk [] 1),
                AttemptBehavior.runs (ChildBehavior.mk [Cycle.timeout] 0)] ++
               [AttemptBehavior.runs (ChildBehavior.mk [] 0)])).attempts = 3 ∧
    (clone [] ([AttemptBehavior.runs (ChildBehavior.mk [] 1),
                AttemptBehavior.runs (ChildBehavior.mk [Cycle.timeout] 0)] ++
               [AttemptBehavior.runs (ChildBehavior.mk [] 0)])).sleeps = 2 :=
  ⟨((clone_pull_retry_until_success [] _ _ []
      (by decide) (by decide)).1).1,
   ((clone_pull_retry_until_success [] _ _ []
      (by decide) (by decide)).1).2.1⟩

/-- C3: whenever the selector loop of the supervised runner ends stuck
(a poll elapsed `_STUCK_TIMEOUT` = 60 s with neither stream ready), the
child has been sent `terminate()` and the run fails with
`_ProcessStuckError` carrying the command and the timeout — regardless of
the child's exit code, so the stuck failure takes precedence over any
exit-code failure. -/
theorem stuck_run_raises_stuck_error
    (cmd : List String) (env : List (String × String)) (child : ChildBehavior)
    (h : (drainResult child).bStuck = true) :
    shellExecWithStuckCheck cmd env child =
      Except.error (AttemptError.stuck cmd STUCK_TIMEOUT) ∧
    (drainResult child).terminated = true ∧
    STUCK_TIMEOUT = 60 := by
  refine ⟨?_, ?_, rfl⟩
  · simp [shellExecWithStuckCheck, h]
  · exact drainLoop_stuck_terminated child.cycles initDrainState
      (by intro hb; simp [initDrainState] at hb) h

theorem stuck_run_raises_stuck_error_witness :
    shellExecWithStuckCheck ["/usr/bin/git", "clone"] getGitSpeedEnv
        (ChildBehavior.mk [Cycle.timeout] 7) =
      Except.error (AttemptError.stuck ["/usr/bin/git", "clone"] STUCK_TIMEOUT) ∧
    (drainResult (ChildBehavior.mk [Cycle.timeout] 7)).terminated = true :=
  ⟨(stuck_run_raises_stuck_error ["/usr/bin/git", "clone"] getGitSpeedEnv
      (ChildBehavior.mk [Cycle.timeout] 7) (by decide)).1,
   (stuck_run_raises_stuck_error ["/usr/bin/git", "clone"] getGitSpeedEnv
      (ChildBehavior.mk [Cycle.timeout] 7) (by decide)).2.1⟩

theorem pullAssertCond_iff (args : List String) :
    pullAssertCond args = true ↔ ∀ x ∈ rebaseFlags, args.contains x = true := by
  simp [pullAssertCond, List.any_eq_true]

/-- C4 counterexample: with exactly one rebase-mode flag present
(`args = ["--rebase"]`, flag count 1) the claim says `pull` passes the
precondition check and proceeds to spawn, but the source's assertion
`not any(x not in args for x in ["-r", "--rebase", "--no-rebase"])`
fails, so `pull` faults (returns `none`) before any spawn. -/
theorem pull_single_flag_still_faults :
    rebaseFlagCount ["--rebase"] = 1 ∧
    pull ["--rebase"] [AttemptBehavior.runs (ChildBehavior.mk [] 0)] = none := by
  decide

/-- C4 amended: `pull` faults with `AssertionError` before any process is
spawned exactly when at least one of the three rebase-mode flags `-r`,
`--rebase`, `--no-rebase` is absent from its arguments; only when all
three are present does it proceed to the retry loop (and spawn). -/
theorem pull_assert_requires_all_flags (args : List String) (bs : List AttemptBehavior) :
    (pull args bs = none ↔ ¬ ∀ x ∈ rebaseFlags, args.contains x = true) ∧
    ((∀ x ∈ rebaseFlags, args.contains x = true) →
      pull args bs = some (gitRetryLoop (pullCmd args) getGitSpeedEnv bs)) := by
  have hb := pullAssertCond_iff args
  by_cases hc : pullAssertCond args = true
  · constructor
    · simp [pull, hc]
      simpa using hb.mp hc
    · intro _
      simp [pull, hc]
  · have hcf : pullAssertCond args = false := by simpa using hc
    constructor
    · simp only [pull, hcf]
      simp only [Bool.false_eq_true, if_false, true_iff]
      intro hall
      exact hc (hb.mpr hall)
    · intro hall
      exact absurd (hb.mpr hall) hc

theorem pull_assert_requires_all_flags_witness :
    pull ["-r", "--rebase", "--no-rebase"] [] =
      some (gitRetryLoop (pullCmd ["-r", "--rebase", "--no-rebase"]) getGitSpeedEnv []) :=
  (pull_assert_requires_all_flags ["-r", "--rebase", "--no-rebase"] []).2 (by decide)

/-- C5: for a well-formed, non-stuck run, the captured standard-output
text is exactly the concatenation of the chunks the child wrote to its
standard output, likewise for standard error; each nonempty chunk is
echoed to the parent's corresponding stream in read order (per-stream echo
order preserved, in the temporal order `liveEchoes` records); and when the
child exits 0, `shellExecWithStuckCheck` returns exactly those captures. -/
theorem capture_round_trip_fidelity
    (cmd : List String) (env : List (String × String)) (child : ChildBehavior)
    (hnt : noTimeoutB child.cycles = true)
    (hwo : wfEvs true (streamData StreamId.out child.cycles) = true)
    (hwe : wfEvs true (streamData StreamId.err child.cycles) = true) :
    (drainResult child).sStdout = joinStr (streamData StreamId.out child.cycles) ∧
    (drainResult child).sStderr = joinStr (streamData StreamId.err child.cycles) ∧
    (drainResult child).echoes = liveEchoes child.cycles ∧
    echoedTo StreamId.out (drainResult child).echoes
      = neChunks (streamData StreamId.out child.cycles) ∧
    echoedTo StreamId.err (drainResult child).echoes
      = neChunks (streamData StreamId.err child.cycles) ∧
    (child.returncode = 0 →
      shellExecWithStuckCheck cmd env child =
        Except.ok (joinStr (streamData StreamId.out child.cycles),
                   joinStr (streamData StreamId.err child.cycles))) := by
  have hd := drainLoop_spec child.cycles initDrainState hnt
    (by simpa [initDrainState] using hwo) (by simpa [initDrainState] using hwe)
  have hdr : drainResult child = drainLoop child.cycles initDrainState := rfl
  have hfin : drainResult child =
      { sStdout := joinStr (streamData StreamId.out child.cycles),
        sStderr := joinStr (streamData StreamId.err child.cycles),
        echoes := liveEchoes child.cycles,
        regOut := regAfter true (streamData StreamId.out child.cycles),
        regErr := regAfter true (streamData StreamId.err child.cycles),
        bStuck := false, terminated := false } := by
    rw [hdr, hd]
    simp [initDrainState]
  refine ⟨?_, ?_, ?_, ?_, ?_, ?_⟩
  · rw [hfin]
  · rw [hfin]
  · rw [hfin]
  · rw [hfin]
    exact echoedTo_liveEchoes StreamId.out child.cycles hnt
  · rw [hfin]
    exact echoedTo_liveEchoes StreamId.err child.cycles hnt
  · intro hrc
    simp [shellExecWithStuckCheck, hfin, hrc]

theorem capture_round_trip_fidelity_witness :
    shellExecWithStuckCheck (cloneCmd []) getGitSpeedEnv
        (ChildBehavior.mk
          [Cycle.ready [ReadEvent.mk StreamId.err "Cloning into x...\n".toList],
           Cycle.ready [ReadEvent.mk StreamId.out [], ReadEvent.mk StreamId.err []]] 0) =
      Except.ok
        (joinStr (streamData StreamId.out
          [Cycle.ready [ReadEvent.mk StreamId.err "Cloning into x...\n".toList],
           Cycle.ready [ReadEvent.mk StreamId.out [], ReadEvent.mk StreamId.err []]]),
         joinStr (streamData StreamId.err
          [Cycle.ready [ReadEvent.mk StreamId.err "Cloning into x...\n".toList],
           Cycle.ready [ReadEvent.mk StreamId.out [], ReadEvent.mk StreamId.err []]])) :=
  (capture_round_trip_fidelity (cloneCmd []) getGitSpeedEnv
    (ChildBehavior.mk
      [Cycle.ready [ReadEvent.mk StreamId.err "Cloning into x...\n".toList],
       Cycle.ready [ReadEvent.mk StreamId.out [], ReadEvent.mk StreamId.err []]] 0)
    (by decide) (by decide) (by decide)).2.2.2.2.2 rfl

/-- C6: a child exit with code `c > 128` on a non-stuck run fails with
`CalledProcessError` carrying that code, and under the specification's
Exit Status convention this code is the tagged value
`KilledBySignal(c - 128)` — not a `FailureCode` with the raw code. -/
theorem exit_code_above_128_killed_by_signal
    (cmd : List String) (env : List (String × String)) (child : ChildBehavior)
    (hns : (drainResult child).bStuck = false)
    (hrc : child.returncode > 128) :
    shellExecWithStuckCheck cmd env child =
      Except.error (AttemptError.called child.returncode cmd
        (drainResult child).sStdout (drainResult child).sStderr) ∧
    specExitStatus child.returncode =
      ExitStatus.killedBySignal (child.returncode - 128) ∧
    (∀ m, specExitStatus child.returncode ≠ ExitStatus.failureCode m) := by
  have hne : child.returncode ≠ 0 := by omega
  have hnle : ¬ child.returncode ≤ 128 := by omega
  refine ⟨?_, ?_, ?_⟩
  · simp [shellExecWithStuckCheck, hns, hne]
  · simp [specExitStatus, hne, hnle]
  · intro m
    simp [specExitStatus, hne, hnle]

theorem exit_code_above_128_killed_by_signal_witness :
    specExitStatus 143 = ExitStatus.killedBySignal 15 ∧
    shellExecWithStuckCheck (cloneCmd []) getGitSpeedEnv (ChildBehavior.mk [] 143) =
      Except.error (AttemptError.called 143 (cloneCmd []) [] []) :=
  ⟨(exit_code_above_128_killed_by_signal (cloneCmd []) getGitSpeedEnv
      (ChildBehavior.mk [] 143) (by decide) (by decide)).2.1,
   (exit_code_above_128_killed_by_signal (cloneCmd []) getGitSpeedEnv
      (ChildBehavior.mk [] 143) (by decide) (by decide)).1⟩

theorem gitRetryLoop_singleton_echoes (cmd : List String)
    (env : List (String × String)) (child : ChildBehavior) :
    (gitRetryLoop cmd env [AttemptBehavior.runs child]).echoes =
      (drainResult child).echoes := by
  cases hres : shellExecWithStuckCheck cmd env child with
  | ok v => simp [gitRetryLoop, runAttempt, hres]
  | error e =>
    cases e with
    | stuck c t => simp [gitRetryLoop, runAttempt, hres]
    | called rc c o er =>
      by_cases hrc : rc > 128
      · simp [gitRetryLoop, runAttempt, hres, hrc]
      · simp [gitRetryLoop, runAttempt, hres, hrc]
    | other => simp [gitRetryLoop, runAttempt, hres]

/-- C7 counterexample: `clean`'s first sub-command produces nonempty
output and succeeds, yet nothing at all is echoed to the parent's streams
— `cmdCall` captures the output and prints it only on failure, after the
child has exited, so the child's streamed output of a `clean` sub-command
is never echoed live while the child runs. -/
theorem clean_success_echoes_nothing :
    (clean "d" (RunBehavior.mk "some output".toList 0) (RunBehavior.mk [] 0)).echoes
        = [] ∧
    "some output".toList ≠ ([] : Str) := by
  constructor
  · rfl
  · decide

/-- C7 amended: the operations that run through the supervised runner
(`clone` and `pull`) echo the child's streamed output live — every
parent-side write they perform happens while the child runs, and for a
well-formed non-stuck run the echoed chunks are exactly the nonempty
chunks read; `clean`'s sub-commands never echo while the child runs: on
success nothing is echoed at all, and on failure the captured output is
printed only after the child has exited. -/
theorem echo_live_only_for_network_ops :
    (∀ (args : List String) (bs : List AttemptBehavior) (x : EchoEvent),
        x ∈ (clone args bs).echoes → ∃ sid c, x = EchoEvent.duringRun sid c) ∧
    (∀ (args : List String) (bs : List AttemptBehavior) (tr : LoopTrace)
        (x : EchoEvent), pull args bs = some tr → x ∈ tr.echoes →
        ∃ sid c, x = EchoEvent.duringRun sid c) ∧
    (∀ (args : List String) (child : ChildBehavior),
        noTimeoutB child.cycles = true →
        wfEvs true (streamData StreamId.out child.cycles) = true →
        wfEvs true (streamData StreamId.err child.cycles) = true →
        (clone args [AttemptBehavior.runs child]).echoes = liveEchoes child.cycles) ∧
    (∀ (d : String) (b1 b2 : RunBehavior) (x : EchoEvent),
        x ∈ (clean d b1 b2).echoes → ∃ c, x = EchoEvent.afterExit c) ∧
    (∀ (d : String) (b1 b2 : RunBehavior), b1.returncode = 0 → b2.returncode = 0 →
        (clean d b1 b2).echoes = []) ∧
    (∀ (d : String) (b1 b2 : RunBehavior), b1.returncode ≠ 0 →
        (clean d b1 b2).echoes = [EchoEvent.afterExit (b1.output ++ ['\n'])]) := by
  refine ⟨?_, ?_, ?_, ?_, ?_, ?_⟩
  · intro args bs x hx
    exact gitRetryLoop_echo_shape (cloneCmd args) getGitSpeedEnv bs x hx
  · intro args bs tr x htr hx
    by_cases hc : pullAssertCond args = true
    · simp [pull, hc] at htr
      rw [← htr] at hx
      exact gitRetryLoop_echo_shape (pullCmd args) getGitSpeedEnv bs x hx
    · simp [pull, hc] at htr
  · intro args child hnt hwo hwe
    rw [show clone args [AttemptBehavior.runs child] =
        gitRetryLoop (cloneCmd args) getGitSpeedEnv [AttemptBehavior.runs child] from rfl,
      gitRetryLoop_singleton_echoes]
    have hd := drainLoop_spec child.cycles initDrainState hnt
      (by simpa [initDrainState] using hwo) (by simpa [initDrainState] using hwe)
    rw [show drainResult child = drainLoop child.cycles initDrainState from rfl, hd]
    simp [initDrainState]
  · intro d b1 b2 x hx
    by_cases h1 : b1.returncode ≠ 0
    · simp [clean, cmdCall, h1] at hx
      exact ⟨_, hx⟩
    · by_cases h2 : b2.returncode ≠ 0
      · simp [clean, cmdCall, h1, h2] at hx
        exact ⟨_, hx⟩
      · simp [clean, cmdCall, h1, h2] at hx
  · intro d b1 b2 h1 h2
    simp [clean, cmdCall, h1, h2]
  · intro d b1 b2 h1
    simp [clean, cmdCall, h1]

theorem echo_live_only_for_network_ops_witness :
    (clean "d" (RunBehavior.mk "boom".toList 1) (RunBehavior.mk [] 0)).echoes =
      [EchoEvent.afterExit ("boom".toList ++ ['\n'])] :=
  echo_live_only_for_network_ops.2.2.2.2.2 "d"
    (RunBehavior.mk "boom".toList 1) (RunBehavior.mk [] 0) (by decide)

/-- C8: `clean` runs exactly two one-shot commands in order — `reset
--hard` against the directory, then `clean -xfd` — with no retry; a
non-zero exit of either sub-command raises `CalledProcessError`, and when
the first sub-command fails the second is never spawned. -/
theorem clean_two_commands_in_order (d : String) (b1 b2 : RunBehavior) :
    (b1.returncode ≠ 0 →
      (clean d b1 b2).spawns =
          [{ argv := ["/usr/bin/git", "-C", d, "reset", "--hard"], env := none }] ∧
      (clean d b1 b2).result = Except.error
          { returncode := b1.returncode,
            cmd := ["/usr/bin/git", "-C", d, "reset", "--hard"],
            output := b1.output }) ∧
    (b1.returncode = 0 →
      (clean d b1 b2).spawns =
          [{ argv := ["/usr/bin/git", "-C", d, "reset", "--hard"], env := none },
           { argv := ["/usr/bin/git", "-C", d, "clean", "-xfd"], env := none }] ∧
      (b2.returncode ≠ 0 → (clean d b1 b2).result = Except.error
          { returncode := b2.returncode,
            cmd := ["/usr/bin/git", "-C", d, "clean", "-xfd"],
            output := b2.output }) ∧
      (b2.returncode = 0 → (clean d b1 b2).result = Except.ok ())) := by
  constructor
  · intro h1
    constructor
    · simp [clean, cmdCall, h1]
    · simp [clean, cmdCall, h1]
  · intro h1
    refine ⟨?_, ?_, ?_⟩
    · by_cases h2 : b2.returncode ≠ 0
      · simp [clean, cmdCall, h1, h2]
      · simp [clean, cmdCall, h1, h2]
    · intro h2
      simp [clean, cmdCall, h1, h2]
    · intro h2
      simp [clean, cmdCall, h1, h2]

theorem clean_two_commands_in_order_witness :
    (clean "d" (RunBehavior.mk "boom".toList 1) (RunBehavior.mk [] 0)).spawns =
        [{ argv := ["/usr/bin/git", "-C", "d", "reset", "--hard"], env := none }] ∧
    (clean "d" (RunBehavior.mk "boom".toList 1) (RunBehavior.mk [] 0)).result =
      Except.error
        { returncode := 1, cmd := ["/usr/bin/git", "-C", "d", "reset", "--hard"],
          output := "boom".toList } :=
  (clean_two_commands_in_order "d" (RunBehavior.mk "boom".toList 1)
    (RunBehavior.mk [] 0)).1 (by decide)

/-- C9: the speed-limit environment overlay is exactly
`GIT_HTTP_LOW_SPEED_LIMIT=1024`, `GIT_HTTP_LOW_SPEED_TIME=60`; every child
spawned by `clone` or `pull` receives it, and neither of `clean`'s two
sub-commands does (they inherit the parent environment). -/
theorem speed_env_only_for_network_ops :
    getGitSpeedEnv =
        [("GIT_HTTP_LOW_SPEED_LIMIT", "1024"), ("GIT_HTTP_LOW_SPEED_TIME", "60")] ∧
    (∀ (args : List String) (bs : List AttemptBehavior) (r : SpawnRecord),
        r ∈ (clone args bs).spawns → r.env = some getGitSpeedEnv) ∧
    (∀ (args : List String) (bs : List AttemptBehavior) (tr : LoopTrace)
        (r : SpawnRecord), pull args bs = some tr → r ∈ tr.spawns →
        r.env = some getGitSpeedEnv) ∧
    (∀ (d : String) (b1 b2 : RunBehavior) (r : SpawnRecord),
        r ∈ (clean d b1 b2).spawns → r.env = none) := by
  refine ⟨rfl, ?_, ?_, ?_⟩
  · intro args bs r hr
    exact (gitRetryLoop_spawn_env (cloneCmd args) getGitSpeedEnv bs r hr).2
  · intro args bs tr r htr hr
    by_cases hc : pullAssertCond args = true
    · simp [pull, hc] at htr
      rw [← htr] at hr
      exact (gitRetryLoop_spawn_env (pullCmd args) getGitSpeedEnv bs r hr).2
    · simp [pull, hc] at htr
  · intro d b1 b2 r hr
    by_cases h1 : b1.returncode ≠ 0
    · simp [clean, cmdCall, h1] at hr
      rw [hr]
    · by_cases h2 : b2.returncode ≠ 0
      · simp [clean, cmdCall, h1, h2] at hr
        rcases hr with hr | hr <;> rw [hr]
      · simp [clean, cmdCall, h1, h2] at hr
        rcases hr with hr | hr <;> rw [hr]

theorem speed_env_only_for_network_ops_witness :
    (SpawnRecord.mk (cloneCmd ["u"]) (some getGitSpeedEnv)).env = some getGitSpeedEnv :=
  speed_env_only_for_network_ops.2.1 ["u"]
    [AttemptBehavior.runs (ChildBehavior.mk [] 0)]
    (SpawnRecord.mk (cloneCmd ["u"]) (some getGitSpeedEnv)) (by decide)

/-- C10: the retry loops of `clone` and `pull` absorb only the two typed
failures; any other exception of an attempt — e.g. `Popen` failing because
the git binary does not exist — propagates immediately: one attempt, no
sleep, no spawn, and later attempt behaviours are never consulted. -/
theorem unknown_exception_propagates (args : List String)
    (rest : List AttemptBehavior) :
    clone args (AttemptBehavior.spawnFail :: rest) =
      { attempts := 1, sleeps := 0, spawns := [], echoes := [],
        outcome := LoopOutcome.raised AttemptError.other } ∧
    (pullAssertCond args = true →
      pull args (AttemptBehavior.spawnFail :: rest) =
        some { attempts := 1, sleeps := 0, spawns := [], echoes := [],
               outcome := LoopOutcome.raised AttemptError.other }) := by
  constructor
  · simp [clone, gitRetryLoop, runAttempt]
  · intro hc
    simp [pull, hc, gitRetryLoop, runAttempt]

theorem unknown_exception_propagates_witness :
    pull ["-r", "--rebase", "--no-rebase"] [AttemptBehavior.spawnFail] =
      some { attempts := 1, sleeps := 0, spawns := [], echoes := [],
             outcome := LoopOutcome.raised AttemptError.other } :=
  (unknown_exception_propagates ["-r", "--rebase", "--no-rebase"] []).2 (by decide)

end RobustGit
